import Mathlib

/-!
Verification of the cube-state/rotation engine and camera/projection pipeline
of the `robust-reindeer` terminal Rubik's Cube renderer.

The development shallowly embeds the geometric core of the program:

* the rotation matrices `Rx`, `Ry`, `Rz` (cube.py lines 12-42; the package
  module `cube/rotation.py` re-exports the same three functions, which the
  claim sources also cite for the package's twists),
* the cubelet model `Cube` (cube/cube.py),
* the 3x3x3 assembly, the face-twist operation `rotate_face`/`twist` and the
  keyboard dispatch (cube/__main__.py),
* the camera frame (cube/artist.py) and both projection variants
  (cube/artist.py's `Artist.project3d` and cube.py's module-level `project3d`).

Floating-point numbers are modelled as real numbers; `numpy` matrices as an
explicit 3x3 row structure.  All rotations performed by the twist engine are
quarter turns, whose matrix entries are exact in this model.
-/

noncomputable section

/-- A point or vector in 3-space (a numpy length-3 array of floats). -/
@[ext]
structure V3 where
  x : ℝ
  y : ℝ
  z : ℝ

namespace V3

/-- Componentwise addition of 3-vectors (numpy `+`). -/
def add (u v : V3) : V3 := ⟨u.x + v.x, u.y + v.y, u.z + v.z⟩

/-- Componentwise subtraction of 3-vectors (numpy `-`). -/
def sub (u v : V3) : V3 := ⟨u.x - v.x, u.y - v.y, u.z - v.z⟩

/-- Negation of a 3-vector (numpy unary `-`). -/
def neg (v : V3) : V3 := ⟨-v.x, -v.y, -v.z⟩

/-- Scalar multiple of a 3-vector (numpy scalar `*`). -/
def smul (r : ℝ) (v : V3) : V3 := ⟨r * v.x, r * v.y, r * v.z⟩

/-- Division of a 3-vector by a scalar (numpy `/`). -/
def div (v : V3) (r : ℝ) : V3 := ⟨v.x / r, v.y / r, v.z / r⟩

/-- Euclidean inner product (numpy `dot` / `np.inner` on length-3 arrays). -/
def dot (u v : V3) : ℝ := u.x * v.x + u.y * v.y + u.z * v.z

end V3

/-- A 3x3 matrix of reals given by its three rows (a numpy `np.matrix`). -/
@[ext]
structure M3 where
  r0 : V3
  r1 : V3
  r2 : V3

namespace M3

/-- Matrix-vector product `R.dot(v)` (each component is a row-vector dot). -/
def mulVec (m : M3) (v : V3) : V3 := ⟨m.r0.dot v, m.r1.dot v, m.r2.dot v⟩

/-- Column `j = 0` of a matrix, as a vector. -/
def col0 (m : M3) : V3 := ⟨m.r0.x, m.r1.x, m.r2.x⟩

/-- Column `j = 1` of a matrix, as a vector. -/
def col1 (m : M3) : V3 := ⟨m.r0.y, m.r1.y, m.r2.y⟩

/-- Column `j = 2` of a matrix, as a vector. -/
def col2 (m : M3) : V3 := ⟨m.r0.z, m.r1.z, m.r2.z⟩

/-- Matrix-matrix product (numpy `@` on `np.matrix`). -/
def mul (a b : M3) : M3 :=
  ⟨⟨a.r0.dot b.col0, a.r0.dot b.col1, a.r0.dot b.col2⟩,
   ⟨a.r1.dot b.col0, a.r1.dot b.col1, a.r1.dot b.col2⟩,
   ⟨a.r2.dot b.col0, a.r2.dot b.col1, a.r2.dot b.col2⟩⟩

end M3

/-- Rotation matrix around the x axis, exactly as written in cube.py lines
12-20: rows `(1,0,0)`, `(0,cos θ,sin θ)`, `(0,-sin θ,cos θ)`. -/
def Rx (theta : ℝ) : M3 :=
  ⟨⟨1, 0, 0⟩,
   ⟨0, Real.cos theta, Real.sin theta⟩,
   ⟨0, -Real.sin theta, Real.cos theta⟩⟩

/-- Rotation matrix around the y axis, exactly as written in cube.py lines
23-31: rows `(cos θ,0,-sin θ)`, `(0,1,0)`, `(sin θ,0,cos θ)`. -/
def Ry (theta : ℝ) : M3 :=
  ⟨⟨Real.cos theta, 0, -Real.sin theta⟩,
   ⟨0, 1, 0⟩,
   ⟨Real.sin theta, 0, Real.cos theta⟩⟩

/-- Rotation matrix around the z axis, exactly as written in cube.py lines
34-42: rows `(cos θ,sin θ,0)`, `(-sin θ,cos θ,0)`, `(0,0,1)`. -/
def Rz (theta : ℝ) : M3 :=
  ⟨⟨Real.cos theta, Real.sin theta, 0⟩,
   ⟨-Real.sin theta, Real.cos theta, 0⟩,
   ⟨0, 0, 1⟩⟩

/-- The three principal axes named by the twist engine. -/
inductive Axis where
  | x
  | y
  | z
deriving DecidableEq

/-- Axis dispatch used by `rotate_face` via
`getattr(Cube, "rotate_" + axis)`: selects `Rx`, `Ry` or `Rz`. -/
def rotMatrix (axis : Axis) (theta : ℝ) : M3 :=
  match axis with
  | Axis.x => Rx theta
  | Axis.y => Ry theta
  | Axis.z => Rz theta

/-- The standard right-handed rotation matrix about the x axis, written from
the spec's words (section 4.1, "the standard right-handed rotation matrix for
that axis"), for comparison with the code's `Rx`. -/
def RxSpec (theta : ℝ) : M3 :=
  ⟨⟨1, 0, 0⟩,
   ⟨0, Real.cos theta, -Real.sin theta⟩,
   ⟨0, Real.sin theta, Real.cos theta⟩⟩

/-- The standard right-handed rotation matrix about the y axis, written from
the spec's words (section 4.1), for comparison with the code's `Ry`. -/
def RySpec (theta : ℝ) : M3 :=
  ⟨⟨Real.cos theta, 0, Real.sin theta⟩,
   ⟨0, 1, 0⟩,
   ⟨-Real.sin theta, 0, Real.cos theta⟩⟩

/-- The standard right-handed rotation matrix about the z axis, written from
the spec's words (section 4.1), for comparison with the code's `Rz`. -/
def RzSpec (theta : ℝ) : M3 :=
  ⟨⟨Real.cos theta, -Real.sin theta, 0⟩,
   ⟨Real.sin theta, Real.cos theta, 0⟩,
   ⟨0, 0, 1⟩⟩

/-- Axis dispatch over the spec's right-handed matrices. -/
def rotMatrixSpec (axis : Axis) (theta : ℝ) : M3 :=
  match axis with
  | Axis.x => RxSpec theta
  | Axis.y => RySpec theta
  | Axis.z => RzSpec theta

/-- The six face labels of a cubelet, in the enumeration order of the
`normal_vectors` / `colours` dictionaries of `Cube.__init__`
(cube/cube.py lines 38-56). -/
inductive Face where
  | front
  | back
  | left
  | right
  | top
  | bottom
deriving DecidableEq

/-- Position of a face label in the dictionary enumeration order. -/
def faceIdx (f : Face) : ℕ :=
  match f with
  | Face.front => 0
  | Face.back => 1
  | Face.left => 2
  | Face.right => 3
  | Face.top => 4
  | Face.bottom => 5

/-- The dictionary enumeration order itself, as a list. -/
def faceList : List Face :=
  [Face.front, Face.back, Face.left, Face.right, Face.top, Face.bottom]

/-- The face opposite a given face. -/
def oppFace (f : Face) : Face :=
  match f with
  | Face.front => Face.back
  | Face.back => Face.front
  | Face.left => Face.right
  | Face.right => Face.left
  | Face.top => Face.bottom
  | Face.bottom => Face.top

/-- asciimatics `Screen.COLOUR_RED` (curses colour code, external constant). -/
def COLOUR_RED : ℕ := 1

/-- asciimatics `Screen.COLOUR_GREEN`. -/
def COLOUR_GREEN : ℕ := 2

/-- asciimatics `Screen.COLOUR_YELLOW`. -/
def COLOUR_YELLOW : ℕ := 3

/-- asciimatics `Screen.COLOUR_BLUE`. -/
def COLOUR_BLUE : ℕ := 4

/-- asciimatics `Screen.COLOUR_MAGENTA`. -/
def COLOUR_MAGENTA : ℕ := 5

/-- asciimatics `Screen.COLOUR_WHITE`. -/
def COLOUR_WHITE : ℕ := 7

/-- The fixed colour table assigned in `Cube.__init__`
(cube/cube.py lines 49-56). -/
def initColours (f : Face) : ℕ :=
  match f with
  | Face.front => COLOUR_RED
  | Face.back => COLOUR_MAGENTA
  | Face.left => COLOUR_YELLOW
  | Face.right => COLOUR_WHITE
  | Face.top => COLOUR_GREEN
  | Face.bottom => COLOUR_BLUE

/-- The canonical outward normals assigned in `Cube.__init__`
(cube/cube.py lines 38-45). -/
def initNormals (f : Face) : V3 :=
  match f with
  | Face.front => ⟨0, 0, 1⟩
  | Face.back => ⟨0, 0, -1⟩
  | Face.left => ⟨-1, 0, 0⟩
  | Face.right => ⟨1, 0, 0⟩
  | Face.top => ⟨0, 1, 0⟩
  | Face.bottom => ⟨0, -1, 0⟩

/-- The four front-face corner points of the untranslated unit-2 cube, in the
order written in `Cube.__init__` (top left, clockwise). -/
def frontPts (i : Fin 4) : V3 :=
  match i with
  | 0 => ⟨-1, 1, 1⟩
  | 1 => ⟨1, 1, 1⟩
  | 2 => ⟨1, -1, 1⟩
  | 3 => ⟨-1, -1, 1⟩

/-- The four back-face corner points, in source order. -/
def backPts (i : Fin 4) : V3 :=
  match i with
  | 0 => ⟨-1, 1, -1⟩
  | 1 => ⟨1, 1, -1⟩
  | 2 => ⟨1, -1, -1⟩
  | 3 => ⟨-1, -1, -1⟩

/-- A cubelet: the state held by class `Cube` of cube/cube.py
(slots `front`, `back`, `normal_vectors`, `colours`, `position`). -/
@[ext]
structure Cube where
  front : Fin 4 → V3
  back : Fin 4 → V3
  normal_vectors : Face → V3
  colours : Face → ℕ
  position : V3

/-- `Cube.__init__(position)`: corners are the unit cube halved and translated
to `position`; normals and colours are the canonical tables
(cube/cube.py lines 13-56). -/
def Cube.init (position : V3) : Cube :=
  { front := fun i => ((frontPts i).div 2).add position
    back := fun i => ((backPts i).div 2).add position
    normal_vectors := initNormals
    colours := initColours
    position := position }

/-- `Cube.__rotation_update__(R)`: every corner, the position, and every
normal is replaced by its image under `R`; the colour table is untouched
(cube/cube.py lines 151-159). -/
def rotationUpdate (R : M3) (c : Cube) : Cube :=
  { front := fun i => R.mulVec (c.front i)
    back := fun i => R.mulVec (c.back i)
    normal_vectors := fun f => R.mulVec (c.normal_vectors f)
    colours := c.colours
    position := R.mulVec c.position }

/-- `Cube.rotate_x(theta)` (cube/cube.py lines 161-164). -/
def Cube.rotate_x (theta : ℝ) (c : Cube) : Cube := rotationUpdate (Rx theta) c

/-- `Cube.rotate_y(theta)` (cube/cube.py lines 166-169). -/
def Cube.rotate_y (theta : ℝ) (c : Cube) : Cube := rotationUpdate (Ry theta) c

/-- `Cube.rotate_z(theta)` (cube/cube.py lines 171-174). -/
def Cube.rotate_z (theta : ℝ) (c : Cube) : Cube := rotationUpdate (Rz theta) c

/-- Alignment of a face with a query direction: the entry
`np.inner(face_normal, normal)` of `face_list` in `Cube.get_face_colour`
(cube/cube.py lines 144-147). -/
def alignment (c : Cube) (face_normal : V3) (f : Face) : ℝ :=
  face_normal.dot (c.normal_vectors f)

/-- The face picked by `Cube.get_face_colour`: the head of the stable sort of
`face_list` by alignment in descending order (cube/cube.py line 149).  Python's
`sorted` is stable and `reverse=True` keeps the original order of equal keys,
so the head is the first face, in dictionary enumeration order, attaining the
maximal alignment; the left fold below keeps the current face unless a later
face is strictly better, which computes exactly that element. -/
def bestFace (c : Cube) (face_normal : V3) : Face :=
  List.foldl
    (fun best f => if alignment c face_normal best < alignment c face_normal f then f else best)
    Face.front
    [Face.back, Face.left, Face.right, Face.top, Face.bottom]

/-- `Cube.get_face_colour(face_normal)` (cube/cube.py lines 141-149). -/
def getFaceColour (c : Cube) (face_normal : V3) : ℕ :=
  c.colours (bestFace c face_normal)

/-- The 3x3x3 grid of cubelets (`rubik_cube` in cube/__main__.py line 41). -/
abbrev Grid := Fin 3 → Fin 3 → Fin 3 → Cube

/-- x coordinate of grid index `i`: the tuple `(-1, 0, 1)` of
`product((-1, 0, 1), (1, 0, -1), (1, 0, -1))` in cube/__main__.py line 42. -/
def xs (i : Fin 3) : ℝ :=
  match i with
  | 0 => -1
  | 1 => 0
  | 2 => 1

/-- y (and z) coordinate of grid index `j`: the tuple `(1, 0, -1)` of the
same `product` call. -/
def ys (j : Fin 3) : ℝ :=
  match j with
  | 0 => 1
  | 1 => 0
  | 2 => -1

/-- The initial assembly: `Cube(coord)` for `coord` ranging over
`product((-1, 0, 1), (1, 0, -1), (1, 0, -1))`, reshaped to 3x3x3 so that
index `(i, j, k)` receives coordinate `(xs i, ys j, ys k)`
(cube/__main__.py lines 41-44). -/
def initialRubik : Grid := fun i j k => Cube.init ⟨xs i, ys j, ys k⟩

/-- Reflection of a grid index (`n - 1 - a` for `n = 3` in numpy's `rot90`
index arithmetic). -/
def flipIdx (a : Fin 3) : Fin 3 :=
  match a with
  | 0 => 2
  | 1 => 1
  | 2 => 0

/-- One counter-clockwise quarter rotation of a 3x3 array:
`np.rot90(m, 1)[a][b] = m[b][n-1-a]`. -/
def rot90ccw {α : Type} (m : Fin 3 → Fin 3 → α) : Fin 3 → Fin 3 → α :=
  fun a b => m b (flipIdx a)

/-- `np.rot90(m, k)` for an integer `k`: numpy reduces `k` modulo 4 and
rotates counter-clockwise that many times. -/
def npRot90 {α : Type} (m : Fin 3 → Fin 3 → α) (k : ℤ) : Fin 3 → Fin 3 → α :=
  rot90ccw^[(k.emod 4).toNat] m

/-- The sign `direction = 1 if clockwise else -1` of `rotate_face`
(cube/__main__.py line 23). -/
def twistDir (clockwise : Bool) : ℤ := if clockwise then 1 else -1

/-- The rotation angle `direction * np.pi / 2` applied by `rotate_face`
(cube/__main__.py line 27). -/
def twistAngle (clockwise : Bool) : ℝ := (twistDir clockwise : ℝ) * (Real.pi / 2)

/-- `rotate_face(face, axis, clockwise)` (cube/__main__.py lines 21-32):
rotate every cubelet of the 3x3 slice by `rotation(axis, direction*pi/2)`,
negate `direction` when the axis is `z`, then rewrite the slice as
`np.rot90(face, -direction)`. -/
def rotateFace (axis : Axis) (clockwise : Bool) (face : Fin 3 → Fin 3 → Cube) :
    Fin 3 → Fin 3 → Cube :=
  npRot90
    (fun a b => rotationUpdate (rotMatrix axis (twistAngle clockwise)) (face a b))
    (-(if axis = Axis.z then -twistDir clockwise else twistDir clockwise))

/-- A twist of one layer of the assembly: `rotate_face` applied to the numpy
slice that the key dispatch passes (cube/__main__.py lines 64-91):
`rubik_cube[idx]` for axis x, `rubik_cube[:, idx]` for axis y and
`rubik_cube[:, :, idx]` for axis z, with the result written back in place. -/
def twist (axis : Axis) (idx : Fin 3) (cw : Bool) (G : Grid) : Grid :=
  match axis with
  | Axis.x => fun i j k =>
      if i = idx then rotateFace Axis.x cw (fun a b => G idx a b) j k else G i j k
  | Axis.y => fun i j k =>
      if j = idx then rotateFace Axis.y cw (fun a b => G a idx b) i k else G i j k
  | Axis.z => fun i j k =>
      if k = idx then rotateFace Axis.z cw (fun a b => G a b idx) i j else G i j k

/-- The twelve twist commands of the key dispatch (cube/__main__.py
lines 64-91), with the two middle-layer commands making fourteen. -/
inductive Cmd where
  | front_cw
  | front_ccw
  | top_cw
  | top_ccw
  | middle_cw
  | middle_ccw
  | back_cw
  | back_ccw
  | bottom_cw
  | bottom_ccw
  | left_cw
  | left_ccw
  | right_cw
  | right_ccw
deriving DecidableEq

/-- The state update performed by the main event loop for each twist key
(cube/__main__.py lines 64-91). -/
def applyCommand (cmd : Cmd) (G : Grid) : Grid :=
  match cmd with
  | Cmd.front_cw => twist Axis.z 0 true G
  | Cmd.front_ccw => twist Axis.z 0 false G
  | Cmd.top_cw => twist Axis.y 0 true G
  | Cmd.top_ccw => twist Axis.y 0 false G
  | Cmd.middle_cw => twist Axis.z 1 true G
  | Cmd.middle_ccw => twist Axis.z 1 false G
  | Cmd.back_cw => twist Axis.z 2 true G
  | Cmd.back_ccw => twist Axis.z 2 false G
  | Cmd.bottom_cw => twist Axis.y 2 true G
  | Cmd.bottom_ccw => twist Axis.y 2 false G
  | Cmd.left_cw => twist Axis.x 0 true G
  | Cmd.left_ccw => twist Axis.x 0 false G
  | Cmd.right_cw => twist Axis.x 2 true G
  | Cmd.right_ccw => twist Axis.x 2 false G

/-- One abstract twist move (axis, layer index, direction). -/
structure Move where
  axis : Axis
  idx : Fin 3
  cw : Bool

/-- A finite sequence of twists applied to an assembly, first move first. -/
def applyMoves (ms : List Move) (G : Grid) : Grid :=
  ms.foldl (fun g m => twist m.axis m.idx m.cw g) G

/-- `DISTANCE_TO_CAMERA` (cube/artist.py line 8). -/
def DISTANCE_TO_CAMERA : ℝ := 6

/-- The camera state held by `Artist` (cube/artist.py): position and the
right/up/forward unit frame. -/
@[ext]
structure CameraFrame where
  camera_position : V3
  camera_x : V3
  camera_y : V3
  camera_z : V3

/-- `Artist.set_initial_camera` (cube/artist.py lines 26-33): rotate the base
frame by `Ry(30/180*pi) @ Rx(30/180*pi)` and place the camera at the image of
`(0, 0, DISTANCE_TO_CAMERA)`. -/
def setInitialCamera : CameraFrame :=
  { camera_position :=
      ((Ry ((30 : ℝ) / 180 * Real.pi)).mul (Rx ((30 : ℝ) / 180 * Real.pi))).mulVec
        ⟨0, 0, DISTANCE_TO_CAMERA⟩
    camera_x :=
      ((Ry ((30 : ℝ) / 180 * Real.pi)).mul (Rx ((30 : ℝ) / 180 * Real.pi))).mulVec ⟨1, 0, 0⟩
    camera_y :=
      ((Ry ((30 : ℝ) / 180 * Real.pi)).mul (Rx ((30 : ℝ) / 180 * Real.pi))).mulVec ⟨0, 1, 0⟩
    camera_z :=
      (((Ry ((30 : ℝ) / 180 * Real.pi)).mul (Rx ((30 : ℝ) / 180 * Real.pi))).mulVec
        ⟨0, 0, 1⟩).neg }

/-- The camera re-orientation performed by the mouse-drag branch of the main
event loop (cube/__main__.py lines 105-124): the accumulated drag is
normalised by the screen extent and by pi into angles `(alpha, beta)`,
`R = Ry(alpha) @ Rx(beta)` is applied to the base frame, and the camera is
placed at `-camera_z * DISTANCE_TO_CAMERA`. -/
def dragCamera (drag_x drag_y width height : ℝ) : CameraFrame :=
  { camera_position :=
      V3.smul DISTANCE_TO_CAMERA
        (((((Ry (drag_x / width * Real.pi)).mul (Rx (drag_y / height * Real.pi))).mulVec
          ⟨0, 0, 1⟩).neg).neg)
    camera_x :=
      ((Ry (drag_x / width * Real.pi)).mul (Rx (drag_y / height * Real.pi))).mulVec ⟨1, 0, 0⟩
    camera_y :=
      ((Ry (drag_x / width * Real.pi)).mul (Rx (drag_y / height * Real.pi))).mulVec ⟨0, 1, 0⟩
    camera_z :=
      ((((Ry (drag_x / width * Real.pi)).mul (Rx (drag_y / height * Real.pi))).mulVec
        ⟨0, 0, 1⟩)).neg }

/-- The legacy module-level `project3d` (cube.py lines 46-75), the variant
with the degeneracy guard: when `|camera_z . (point - camera_position)|` is
below `1e-6` it returns `None` (embedded as `none`, the NoIntersection
signal); otherwise it returns the 2-space coordinates of the intersection
point on the perspective plane. -/
def project3dLegacy (point camera_position camera_x camera_y camera_z : V3) :
    Option (ℝ × ℝ) :=
  if |camera_z.dot (point.sub camera_position)| < 1e-6 then
    none
  else
    some
      (((V3.smul (1 / camera_z.dot (point.sub camera_position))
          (point.sub camera_position)).add camera_position).dot camera_x,
       ((V3.smul (1 / camera_z.dot (point.sub camera_position))
          (point.sub camera_position)).add camera_position).dot camera_y)

/-- `Artist.project3d` of the package (cube/artist.py lines 47-68): computes
the same perspective point but with NO degeneracy branch (the division is
performed unconditionally; in Python a zero denominator produces an infinite
float rather than a skip signal, while this real-number embedding assigns the
junk value `1/0 = 0` -- the salient fact is that no `none`/skip path exists in
the code), then maps to pixel space as `(cx*(1+x), cy*(1-y))`. -/
def project3dArtist (cx cy : ℝ) (cam : CameraFrame) (point : V3) : ℝ × ℝ :=
  ((cx * (1 +
      ((V3.smul (1 / cam.camera_z.dot (point.sub cam.camera_position))
        (point.sub cam.camera_position)).add cam.camera_position).dot cam.camera_x)),
   (cy * (1 -
      ((V3.smul (1 / cam.camera_z.dot (point.sub cam.camera_position))
        (point.sub cam.camera_position)).add cam.camera_position).dot cam.camera_y)))

/-- The legacy `Artist.line` (cube.py lines 103-124): it unpacks the result of
`project3d` with `x, y = project3d(...)` and draws unconditionally.  When
`project3d` returns `None` the unpacking raises a `TypeError`; the embedding
propagates that abort as `none`.  A successful call yields the two screen
points `(cx*(1+x), cy*(1+y))` passed to `screen.move` and `screen.draw`. -/
def lineLegacy (cx cy : ℝ) (camera_position camera_x camera_y camera_z pt1 pt2 : V3) :
    Option ((ℝ × ℝ) × (ℝ × ℝ)) :=
  match project3dLegacy pt1 camera_position camera_x camera_y camera_z with
  | none => none
  | some p1 =>
    match project3dLegacy pt2 camera_position camera_x camera_y camera_z with
    | none => none
    | some p2 =>
      some ((cx * (1 + p1.1), cy * (1 + p1.2)), (cx * (1 + p2.1), cy * (1 + p2.2)))

/-- The index-to-coordinate labeling of the assembly: the cubelet stored at
grid index `(i, j, k)` sits at world position `(i-1, 1-j, 1-k)`. -/
def PosInv (G : Grid) : Prop :=
  ∀ i j k : Fin 3,
    (G i j k).position = ⟨(i.val : ℝ) - 1, 1 - (j.val : ℝ), 1 - (k.val : ℝ)⟩

/-- Inner products prescribed by the initial normal table: 1 on the diagonal,
-1 for opposite faces, 0 otherwise. -/
def orthoVal (f g : Face) : ℝ :=
  if f = g then 1 else if g = oppFace f then -1 else 0

/-- Every cubelet's normals pair up exactly as the canonical table does:
unit vectors, orthogonal unless opposite, antiparallel when opposite. -/
def NormalsOrtho (G : Grid) : Prop :=
  ∀ (i j k : Fin 3) (f g : Face),
    ((G i j k).normal_vectors f).dot ((G i j k).normal_vectors g) = orthoVal f g

/-- Every cubelet still carries the colour table assigned at construction. -/
def ColoursInv (G : Grid) : Prop :=
  ∀ i j k : Fin 3, (G i j k).colours = initColours

/-- Membership of a grid slot in the layer selected by an axis and index. -/
def inLayer (axis : Axis) (idx : Fin 3) (i j k : Fin 3) : Prop :=
  match axis with
  | Axis.x => i = idx
  | Axis.y => j = idx
  | Axis.z => k = idx

/-- Centre slot of the layer selected by an axis and index. -/
def ctrSlot (axis : Axis) (idx : Fin 3) : Fin 3 × Fin 3 × Fin 3 :=
  match axis with
  | Axis.x => (idx, 1, 1)
  | Axis.y => (1, idx, 1)
  | Axis.z => (1, 1, idx)

lemma mulVec_mul (a b : M3) (v : V3) :
    (a.mul b).mulVec v = a.mulVec (b.mulVec v) := by
  ext <;> simp [M3.mul, M3.mulVec, V3.dot, M3.col0, M3.col1, M3.col2] <;> ring

lemma dot_mulVec_Rx (theta : ℝ) (u v : V3) :
    ((Rx theta).mulVec u).dot ((Rx theta).mulVec v) = u.dot v := by
  simp only [Rx, M3.mulVec, V3.dot]
  linear_combination (u.y * v.y + u.z * v.z) * Real.sin_sq_add_cos_sq theta

lemma dot_mulVec_Ry (theta : ℝ) (u v : V3) :
    ((Ry theta).mulVec u).dot ((Ry theta).mulVec v) = u.dot v := by
  simp only [Ry, M3.mulVec, V3.dot]
  linear_combination (u.x * v.x + u.z * v.z) * Real.sin_sq_add_cos_sq theta

lemma dot_mulVec_Rz (theta : ℝ) (u v : V3) :
    ((Rz theta).mulVec u).dot ((Rz theta).mulVec v) = u.dot v := by
  simp only [Rz, M3.mulVec, V3.dot]
  linear_combination (u.x * v.x + u.y * v.y) * Real.sin_sq_add_cos_sq theta

lemma dot_mulVec_rotMatrix (axis : Axis) (theta : ℝ) (u v : V3) :
    ((rotMatrix axis theta).mulVec u).dot ((rotMatrix axis theta).mulVec v) = u.dot v := by
  cases axis
  · exact dot_mulVec_Rx theta u v
  · exact dot_mulVec_Ry theta u v
  · exact dot_mulVec_Rz theta u v

lemma twistAngle_true : twistAngle true = Real.pi / 2 := by
  simp [twistAngle, twistDir]

lemma twistAngle_false : twistAngle false = -(Real.pi / 2) := by
  simp [twistAngle, twistDir]

lemma rotM_x_true : rotMatrix Axis.x (twistAngle true) = ⟨⟨1, 0, 0⟩, ⟨0, 0, 1⟩, ⟨0, -1, 0⟩⟩ := by
  simp [rotMatrix, Rx, twistAngle_true, Real.cos_pi_div_two, Real.sin_pi_div_two]

lemma rotM_x_false : rotMatrix Axis.x (twistAngle false) = ⟨⟨1, 0, 0⟩, ⟨0, 0, -1⟩, ⟨0, 1, 0⟩⟩ := by
  simp [rotMatrix, Rx, twistAngle_false, Real.cos_pi_div_two, Real.sin_pi_div_two]

lemma rotM_y_true : rotMatrix Axis.y (twistAngle true) = ⟨⟨0, 0, -1⟩, ⟨0, 1, 0⟩, ⟨1, 0, 0⟩⟩ := by
  simp [rotMatrix, Ry, twistAngle_true, Real.cos_pi_div_two, Real.sin_pi_div_two]

lemma rotM_y_false : rotMatrix Axis.y (twistAngle false) = ⟨⟨0, 0, 1⟩, ⟨0, 1, 0⟩, ⟨-1, 0, 0⟩⟩ := by
  simp [rotMatrix, Ry, twistAngle_false, Real.cos_pi_div_two, Real.sin_pi_div_two]

lemma rotM_z_true : rotMatrix Axis.z (twistAngle true) = ⟨⟨0, 1, 0⟩, ⟨-1, 0, 0⟩, ⟨0, 0, 1⟩⟩ := by
  simp [rotMatrix, Rz, twistAngle_true, Real.cos_pi_div_two, Real.sin_pi_div_two]

lemma rotM_z_false : rotMatrix Axis.z (twistAngle false) = ⟨⟨0, -1, 0⟩, ⟨1, 0, 0⟩, ⟨0, 0, 1⟩⟩ := by
  simp [rotMatrix, Rz, twistAngle_false, Real.cos_pi_div_two, Real.sin_pi_div_two]

lemma flipIdx_flipIdx (a : Fin 3) : flipIdx (flipIdx a) = a := by
  fin_cases a <;> rfl

lemma rot90ccw_apply {α : Type} (m : Fin 3 → Fin 3 → α) (a b : Fin 3) :
    rot90ccw m a b = m b (flipIdx a) := rfl

lemma rot90ccw_three {α : Type} (m : Fin 3 → Fin 3 → α) (a b : Fin 3) :
    (rot90ccw^[3]) m a b = m (flipIdx b) a := by
  show rot90ccw (rot90ccw (rot90ccw m)) a b = m (flipIdx b) a
  show m (flipIdx b) (flipIdx (flipIdx a)) = m (flipIdx b) a
  rw [flipIdx_flipIdx]

lemma npRot90_one {α : Type} (m : Fin 3 → Fin 3 → α) : npRot90 m 1 = rot90ccw m := by
  have h : ((1 : ℤ).emod 4).toNat = 1 := by decide
  unfold npRot90
  rw [h, Function.iterate_one]

lemma npRot90_neg_one {α : Type} (m : Fin 3 → Fin 3 → α) :
    npRot90 m (-1) = (rot90ccw^[3]) m := by
  have h : (((-1) : ℤ).emod 4).toNat = 3 := by decide
  unfold npRot90
  rw [h]

lemma rotateFace_z_true (face : Fin 3 → Fin 3 → Cube) :
    rotateFace Axis.z true face =
      rot90ccw (fun a b => rotationUpdate (rotMatrix Axis.z (twistAngle true)) (face a b)) := by
  have h : (-(if Axis.z = Axis.z then -twistDir true else twistDir true) : ℤ) = 1 := by
    simp [twistDir]
  unfold rotateFace
  rw [h, npRot90_one]

lemma rotateFace_z_false (face : Fin 3 → Fin 3 → Cube) :
    rotateFace Axis.z false face =
      (rot90ccw^[3])
        (fun a b => rotationUpdate (rotMatrix Axis.z (twistAngle false)) (face a b)) := by
  have h : (-(if Axis.z = Axis.z then -twistDir false else twistDir false) : ℤ) = -1 := by
    simp [twistDir]
  unfold rotateFace
  rw [h, npRot90_neg_one]

lemma rotateFace_y_true (face : Fin 3 → Fin 3 → Cube) :
    rotateFace Axis.y true face =
      (rot90ccw^[3])
        (fun a b => rotationUpdate (rotMatrix Axis.y (twistAngle true)) (face a b)) := by
  have h : (-(if Axis.y = Axis.z then -twistDir true else twistDir true) : ℤ) = -1 := by
    simp [twistDir]
  unfold rotateFace
  rw [h, npRot90_neg_one]

lemma rotateFace_y_false (face : Fin 3 → Fin 3 → Cube) :
    rotateFace Axis.y false face =
      rot90ccw (fun a b => rotationUpdate (rotMatrix Axis.y (twistAngle false)) (face a b)) := by
  have h : (-(if Axis.y = Axis.z then -twistDir false else twistDir false) : ℤ) = 1 := by
    simp [twistDir]
  unfold rotateFace
  rw [h, npRot90_one]

lemma rotateFace_x_true (face : Fin 3 → Fin 3 → Cube) :
    rotateFace Axis.x true face =
      (rot90ccw^[3])
        (fun a b => rotationUpdate (rotMatrix Axis.x (twistAngle true)) (face a b)) := by
  have h : (-(if Axis.x = Axis.z then -twistDir true else twistDir true) : ℤ) = -1 := by
    simp [twistDir]
  unfold rotateFace
  rw [h, npRot90_neg_one]

lemma rotateFace_x_false (face : Fin 3 → Fin 3 → Cube) :
    rotateFace Axis.x false face =
      rot90ccw (fun a b => rotationUpdate (rotMatrix Axis.x (twistAngle false)) (face a b)) := by
  have h : (-(if Axis.x = Axis.z then -twistDir false else twistDir false) : ℤ) = 1 := by
    simp [twistDir]
  unfold rotateFace
  rw [h, npRot90_one]

lemma twist_z_in (idx : Fin 3) (cw : Bool) (G : Grid) (i j : Fin 3) :
    twist Axis.z idx cw G i j idx =
      if cw then
        rotationUpdate (rotMatrix Axis.z (twistAngle true)) (G j (flipIdx i) idx)
      else
        rotationUpdate (rotMatrix Axis.z (twistAngle false)) (G (flipIdx j) i idx) := by
  show (if idx = idx then rotateFace Axis.z cw (fun a b => G a b idx) i j else G i j idx) = _
  rw [if_pos rfl]
  cases cw
  · rw [rotateFace_z_false, rot90ccw_three]
    rfl
  · rw [rotateFace_z_true, rot90ccw_apply]
    rfl

lemma twist_y_in (idx : Fin 3) (cw : Bool) (G : Grid) (i k : Fin 3) :
    twist Axis.y idx cw G i idx k =
      if cw then
        rotationUpdate (rotMatrix Axis.y (twistAngle true)) (G (flipIdx k) idx i)
      else
        rotationUpdate (rotMatrix Axis.y (twistAngle false)) (G k idx (flipIdx i)) := by
  show (if idx = idx then rotateFace Axis.y cw (fun a b => G a idx b) i k else G i idx k) = _
  rw [if_pos rfl]
  cases cw
  · rw [rotateFace_y_false, rot90ccw_apply]
    rfl
  · rw [rotateFace_y_true, rot90ccw_three]
    rfl

lemma twist_x_in (idx : Fin 3) (cw : Bool) (G : Grid) (j k : Fin 3) :
    twist Axis.x idx cw G idx j k =
      if cw then
        rotationUpdate (rotMatrix Axis.x (twistAngle true)) (G idx (flipIdx k) j)
      else
        rotationUpdate (rotMatrix Axis.x (twistAngle false)) (G idx k (flipIdx j)) := by
  show (if idx = idx then rotateFace Axis.x cw (fun a b => G idx a b) j k else G idx j k) = _
  rw [if_pos rfl]
  cases cw
  · rw [rotateFace_x_false, rot90ccw_apply]
    rfl
  · rw [rotateFace_x_true, rot90ccw_three]
    rfl

lemma twist_z_out (idx : Fin 3) (cw : Bool) (G : Grid) (i j k : Fin 3) (h : k ≠ idx) :
    twist Axis.z idx cw G i j k = G i j k := by
  show (if k = idx then rotateFace Axis.z cw (fun a b => G a b idx) i j else G i j k) = G i j k
  rw [if_neg h]

lemma twist_y_out (idx : Fin 3) (cw : Bool) (G : Grid) (i j k : Fin 3) (h : j ≠ idx) :
    twist Axis.y idx cw G i j k = G i j k := by
  show (if j = idx then rotateFace Axis.y cw (fun a b => G a idx b) i k else G i j k) = G i j k
  rw [if_neg h]

lemma twist_x_out (idx : Fin 3) (cw : Bool) (G : Grid) (i j k : Fin 3) (h : i ≠ idx) :
    twist Axis.x idx cw G i j k = G i j k := by
  show (if i = idx then rotateFace Axis.x cw (fun a b => G idx a b) j k else G i j k) = G i j k
  rw [if_neg h]

lemma twist_z_in_t (idx : Fin 3) (G : Grid) (i j : Fin 3) :
    twist Axis.z idx true G i j idx =
      rotationUpdate (rotMatrix Axis.z (twistAngle true)) (G j (flipIdx i) idx) := by
  rw [twist_z_in, if_pos rfl]

lemma twist_z_in_f (idx : Fin 3) (G : Grid) (i j : Fin 3) :
    twist Axis.z idx false G i j idx =
      rotationUpdate (rotMatrix Axis.z (twistAngle false)) (G (flipIdx j) i idx) := by
  rw [twist_z_in, if_neg]
  exact Bool.false_ne_true

lemma twist_y_in_t (idx : Fin 3) (G : Grid) (i k : Fin 3) :
    twist Axis.y idx true G i idx k =
      rotationUpdate (rotMatrix Axis.y (twistAngle true)) (G (flipIdx k) idx i) := by
  rw [twist_y_in, if_pos rfl]

lemma twist_y_in_f (idx : Fin 3) (G : Grid) (i k : Fin 3) :
    twist Axis.y idx false G i idx k =
      rotationUpdate (rotMatrix Axis.y (twistAngle false)) (G k idx (flipIdx i)) := by
  rw [twist_y_in, if_neg]
  exact Bool.false_ne_true

lemma twist_x_in_t (idx : Fin 3) (G : Grid) (j k : Fin 3) :
    twist Axis.x idx true G idx j k =
      rotationUpdate (rotMatrix Axis.x (twistAngle true)) (G idx (flipIdx k) j) := by
  rw [twist_x_in, if_pos rfl]

lemma twist_x_in_f (idx : Fin 3) (G : Grid) (j k : Fin 3) :
    twist Axis.x idx false G idx j k =
      rotationUpdate (rotMatrix Axis.x (twistAngle false)) (G idx k (flipIdx j)) := by
  rw [twist_x_in, if_neg]
  exact Bool.false_ne_true

lemma mulVec_four (axis : Axis) (cw : Bool) (v : V3) :
    (rotMatrix axis (twistAngle cw)).mulVec ((rotMatrix axis (twistAngle cw)).mulVec
      ((rotMatrix axis (twistAngle cw)).mulVec ((rotMatrix axis (twistAngle cw)).mulVec v))) = v := by
  cases axis <;> cases cw <;>
    simp only [rotM_x_true, rotM_x_false, rotM_y_true, rotM_y_false, rotM_z_true,
      rotM_z_false] <;>
    (ext <;> simp only [M3.mulVec, V3.dot] <;> ring)

lemma rotationUpdate_four (M : M3)
    (h : ∀ v, M.mulVec (M.mulVec (M.mulVec (M.mulVec v))) = v) (c : Cube) :
    rotationUpdate M (rotationUpdate M (rotationUpdate M (rotationUpdate M c))) = c := by
  apply Cube.ext
  · funext i
    exact h (c.front i)
  · funext i
    exact h (c.back i)
  · funext f
    exact h (c.normal_vectors f)
  · rfl
  · exact h c.position

lemma four_twists_z (idx : Fin 3) (cw : Bool) (G : Grid) :
    twist Axis.z idx cw (twist Axis.z idx cw (twist Axis.z idx cw (twist Axis.z idx cw G))) = G := by
  funext i j k
  by_cases hk : k = idx
  · subst hk
    cases cw
    · rw [twist_z_in_f, twist_z_in_f, twist_z_in_f, twist_z_in_f, flipIdx_flipIdx,
        flipIdx_flipIdx]
      exact rotationUpdate_four _ (mulVec_four Axis.z false) _
    · rw [twist_z_in_t, twist_z_in_t, twist_z_in_t, twist_z_in_t, flipIdx_flipIdx,
        flipIdx_flipIdx]
      exact rotationUpdate_four _ (mulVec_four Axis.z true) _
  · rw [twist_z_out _ _ _ _ _ _ hk, twist_z_out _ _ _ _ _ _ hk, twist_z_out _ _ _ _ _ _ hk,
      twist_z_out _ _ _ _ _ _ hk]

lemma four_twists_y (idx : Fin 3) (cw : Bool) (G : Grid) :
    twist Axis.y idx cw (twist Axis.y idx cw (twist Axis.y idx cw (twist Axis.y idx cw G))) = G := by
  funext i j k
  by_cases hj : j = idx
  · subst hj
    cases cw
    · rw [twist_y_in_f, twist_y_in_f, twist_y_in_f, twist_y_in_f, flipIdx_flipIdx,
        flipIdx_flipIdx]
      exact rotationUpdate_four _ (mulVec_four Axis.y false) _
    · rw [twist_y_in_t, twist_y_in_t, twist_y_in_t, twist_y_in_t, flipIdx_flipIdx,
        flipIdx_flipIdx]
      exact rotationUpdate_four _ (mulVec_four Axis.y true) _
  · rw [twist_y_out _ _ _ _ _ _ hj, twist_y_out _ _ _ _ _ _ hj, twist_y_out _ _ _ _ _ _ hj,
      twist_y_out _ _ _ _ _ _ hj]

lemma four_twists_x (idx : Fin 3) (cw : Bool) (G : Grid) :
    twist Axis.x idx cw (twist Axis.x idx cw (twist Axis.x idx cw (twist Axis.x idx cw G))) = G := by
  funext i j k
  by_cases hi : i = idx
  · subst hi
    cases cw
    · rw [twist_x_in_f, twist_x_in_f, twist_x_in_f, twist_x_in_f, flipIdx_flipIdx,
        flipIdx_flipIdx]
      exact rotationUpdate_four _ (mulVec_four Axis.x false) _
    · rw [twist_x_in_t, twist_x_in_t, twist_x_in_t, twist_x_in_t, flipIdx_flipIdx,
        flipIdx_flipIdx]
      exact rotationUpdate_four _ (mulVec_four Axis.x true) _
  · rw [twist_x_out _ _ _ _ _ _ hi, twist_x_out _ _ _ _ _ _ hi, twist_x_out _ _ _ _ _ _ hi,
      twist_x_out _ _ _ _ _ _ hi]

lemma flip_val (a : Fin 3) : ((flipIdx a).val : ℝ) = 2 - (a.val : ℝ) := by
  fin_cases a <;> norm_num [flipIdx]

lemma xs_eq (i : Fin 3) : xs i = (i.val : ℝ) - 1 := by
  fin_cases i <;> norm_num [xs]

lemma ys_eq (j : Fin 3) : ys j = 1 - (j.val : ℝ) := by
  fin_cases j <;> norm_num [ys]

lemma posInv_initial : PosInv initialRubik := by
  intro i j k
  show (⟨xs i, ys j, ys k⟩ : V3) = _
  rw [xs_eq, ys_eq, ys_eq]

lemma posInv_twist (axis : Axis) (idx : Fin 3) (cw : Bool) (G : Grid) (h : PosInv G) :
    PosInv (twist axis idx cw G) := by
  intro i j k
  cases axis
  · by_cases hi : i = idx
    · subst hi
      cases cw
      · rw [twist_x_in_f]
        show (rotMatrix Axis.x (twistAngle false)).mulVec (G i k (flipIdx j)).position = _
        rw [h, rotM_x_false]
        ext <;> simp [M3.mulVec, V3.dot, flip_val] <;> ring
      · rw [twist_x_in_t]
        show (rotMatrix Axis.x (twistAngle true)).mulVec (G i (flipIdx k) j).position = _
        rw [h, rotM_x_true]
        ext <;> simp [M3.mulVec, V3.dot, flip_val] <;> ring
    · rw [twist_x_out _ _ _ _ _ _ hi]
      exact h i j k
  · by_cases hj : j = idx
    · subst hj
      cases cw
      · rw [twist_y_in_f]
        show (rotMatrix Axis.y (twistAngle false)).mulVec (G k j (flipIdx i)).position = _
        rw [h, rotM_y_false]
        ext <;> simp [M3.mulVec, V3.dot, flip_val] <;> ring
      · rw [twist_y_in_t]
        show (rotMatrix Axis.y (twistAngle true)).mulVec (G (flipIdx k) j i).position = _
        rw [h, rotM_y_true]
        ext <;> simp [M3.mulVec, V3.dot, flip_val] <;> ring
    · rw [twist_y_out _ _ _ _ _ _ hj]
      exact h i j k
  · by_cases hk : k = idx
    · subst hk
      cases cw
      · rw [twist_z_in_f]
        show (rotMatrix Axis.z (twistAngle false)).mulVec (G (flipIdx j) i k).position = _
        rw [h, rotM_z_false]
        ext <;> simp [M3.mulVec, V3.dot, flip_val] <;> ring
      · rw [twist_z_in_t]
        show (rotMatrix Axis.z (twistAngle true)).mulVec (G j (flipIdx i) k).position = _
        rw [h, rotM_z_true]
        ext <;> simp [M3.mulVec, V3.dot, flip_val] <;> ring
    · rw [twist_z_out _ _ _ _ _ _ hk]
      exact h i j k

lemma initNormals_dot (f g : Face) : (initNormals f).dot (initNormals g) = orthoVal f g := by
  cases f <;> cases g <;> simp [initNormals, orthoVal, oppFace, V3.dot]

lemma normalsOrtho_initial : NormalsOrtho initialRubik := by
  intro i j k f g
  exact initNormals_dot f g

lemma normalsOrtho_rotationUpdate (M : M3)
    (hM : ∀ u v, (M.mulVec u).dot (M.mulVec v) = u.dot v) (c : Cube)
    (hc : ∀ f g, (c.normal_vectors f).dot (c.normal_vectors g) = orthoVal f g) (f g : Face) :
    ((rotationUpdate M c).normal_vectors f).dot ((rotationUpdate M c).normal_vectors g) =
      orthoVal f g := by
  show (M.mulVec (c.normal_vectors f)).dot (M.mulVec (c.normal_vectors g)) = orthoVal f g
  rw [hM]
  exact hc f g

lemma normalsOrtho_twist (axis : Axis) (idx : Fin 3) (cw : Bool) (G : Grid)
    (h : NormalsOrtho G) : NormalsOrtho (twist axis idx cw G) := by
  intro i j k f g
  cases axis
  · by_cases hi : i = idx
    · subst hi
      cases cw
      · rw [twist_x_in_f]
        exact normalsOrtho_rotationUpdate _ (dot_mulVec_rotMatrix _ _) _
          (fun f g => h i k (flipIdx j) f g) f g
      · rw [twist_x_in_t]
        exact normalsOrtho_rotationUpdate _ (dot_mulVec_rotMatrix _ _) _
          (fun f g => h i (flipIdx k) j f g) f g
    · rw [twist_x_out _ _ _ _ _ _ hi]
      exact h i j k f g
  · by_cases hj : j = idx
    · subst hj
      cases cw
      · rw [twist_y_in_f]
        exact normalsOrtho_rotationUpdate _ (dot_mulVec_rotMatrix _ _) _
          (fun f g => h k j (flipIdx i) f g) f g
      · rw [twist_y_in_t]
        exact normalsOrtho_rotationUpdate _ (dot_mulVec_rotMatrix _ _) _
          (fun f g => h (flipIdx k) j i f g) f g
    · rw [twist_y_out _ _ _ _ _ _ hj]
      exact h i j k f g
  · by_cases hk : k = idx
    · subst hk
      cases cw
      · rw [twist_z_in_f]
        exact normalsOrtho_rotationUpdate _ (dot_mulVec_rotMatrix _ _) _
          (fun f g => h (flipIdx j) i k f g) f g
      · rw [twist_z_in_t]
        exact normalsOrtho_rotationUpdate _ (dot_mulVec_rotMatrix _ _) _
          (fun f g => h j (flipIdx i) k f g) f g
    · rw [twist_z_out _ _ _ _ _ _ hk]
      exact h i j k f g

lemma normalsOrtho_applyMoves (ms : List Move) (G : Grid) (h : NormalsOrtho G) :
    NormalsOrtho (applyMoves ms G) := by
  induction ms generalizing G with
  | nil => exact h
  | cons m ms ih =>
    exact ih _ (normalsOrtho_twist m.axis m.idx m.cw G h)

lemma coloursInv_initial : ColoursInv initialRubik := fun _ _ _ => rfl

lemma coloursInv_twist (axis : Axis) (idx : Fin 3) (cw : Bool) (G : Grid)
    (h : ColoursInv G) : ColoursInv (twist axis idx cw G) := by
  intro i j k
  cases axis
  · by_cases hi : i = idx
    · subst hi
      cases cw
      · rw [twist_x_in_f]
        exact h i k (flipIdx j)
      · rw [twist_x_in_t]
        exact h i (flipIdx k) j
    · rw [twist_x_out _ _ _ _ _ _ hi]
      exact h i j k
  · by_cases hj : j = idx
    · subst hj
      cases cw
      · rw [twist_y_in_f]
        exact h k j (flipIdx i)
      · rw [twist_y_in_t]
        exact h (flipIdx k) j i
    · rw [twist_y_out _ _ _ _ _ _ hj]
      exact h i j k
  · by_cases hk : k = idx
    · subst hk
      cases cw
      · rw [twist_z_in_f]
        exact h (flipIdx j) i k
      · rw [twist_z_in_t]
        exact h j (flipIdx i) k
    · rw [twist_z_out _ _ _ _ _ _ hk]
      exact h i j k

lemma coloursInv_applyMoves (ms : List Move) (G : Grid) (h : ColoursInv G) :
    ColoursInv (applyMoves ms G) := by
  induction ms generalizing G with
  | nil => exact h
  | cons m ms ih =>
    exact ih _ (coloursInv_twist m.axis m.idx m.cw G h)

lemma fixed_of_quarter_x (cw : Bool) (v : V3)
    (h : (rotMatrix Axis.x (twistAngle cw)).mulVec v = v) : v.y = 0 ∧ v.z = 0 := by
  cases cw
  · rw [rotM_x_false] at h
    have h2 := congrArg V3.y h
    have h3 := congrArg V3.z h
    simp [M3.mulVec, V3.dot] at h2 h3
    constructor <;> linarith
  · rw [rotM_x_true] at h
    have h2 := congrArg V3.y h
    have h3 := congrArg V3.z h
    simp [M3.mulVec, V3.dot] at h2 h3
    constructor <;> linarith

lemma fixed_of_quarter_y (cw : Bool) (v : V3)
    (h : (rotMatrix Axis.y (twistAngle cw)).mulVec v = v) : v.x = 0 ∧ v.z = 0 := by
  cases cw
  · rw [rotM_y_false] at h
    have h1 := congrArg V3.x h
    have h3 := congrArg V3.z h
    simp [M3.mulVec, V3.dot] at h1 h3
    constructor <;> linarith
  · rw [rotM_y_true] at h
    have h1 := congrArg V3.x h
    have h3 := congrArg V3.z h
    simp [M3.mulVec, V3.dot] at h1 h3
    constructor <;> linarith

lemma fixed_of_quarter_z (cw : Bool) (v : V3)
    (h : (rotMatrix Axis.z (twistAngle cw)).mulVec v = v) : v.x = 0 ∧ v.y = 0 := by
  cases cw
  · rw [rotM_z_false] at h
    have h1 := congrArg V3.x h
    have h2 := congrArg V3.y h
    simp [M3.mulVec, V3.dot] at h1 h2
    constructor <;> linarith
  · rw [rotM_z_true] at h
    have h1 := congrArg V3.x h
    have h2 := congrArg V3.y h
    simp [M3.mulVec, V3.dot] at h1 h2
    constructor <;> linarith

lemma quarter_turn_moves (axis : Axis) (cw : Bool) (c : Cube)
    (hc : ∀ f g, (c.normal_vectors f).dot (c.normal_vectors g) = orthoVal f g) :
    rotationUpdate (rotMatrix axis (twistAngle cw)) c ≠ c := by
  intro heq
  have hn : ∀ f, (rotMatrix axis (twistAngle cw)).mulVec (c.normal_vectors f) =
      c.normal_vectors f := fun f => congrFun (congrArg Cube.normal_vectors heq) f
  have h1 := hc Face.front Face.front
  have h2 := hc Face.top Face.top
  have h3 := hc Face.front Face.top
  simp [orthoVal, oppFace] at h1 h2 h3
  have hu := hn Face.front
  have hw := hn Face.top
  cases axis
  · obtain ⟨huy, huz⟩ := fixed_of_quarter_x cw _ hu
    obtain ⟨hwy, hwz⟩ := fixed_of_quarter_x cw _ hw
    simp only [V3.dot, huy, huz, hwy, hwz] at h1 h2 h3
    simp at h1 h2 h3
    rcases h3 with h0 | h0
    · rw [h0] at h1
      norm_num at h1
    · rw [h0] at h2
      norm_num at h2
  · obtain ⟨hux, huz⟩ := fixed_of_quarter_y cw _ hu
    obtain ⟨hwx, hwz⟩ := fixed_of_quarter_y cw _ hw
    simp only [V3.dot, hux, huz, hwx, hwz] at h1 h2 h3
    simp at h1 h2 h3
    rcases h3 with h0 | h0
    · rw [h0] at h1
      norm_num at h1
    · rw [h0] at h2
      norm_num at h2
  · obtain ⟨hux, huy⟩ := fixed_of_quarter_z cw _ hu
    obtain ⟨hwx, hwy⟩ := fixed_of_quarter_z cw _ hw
    simp only [V3.dot, hux, huy, hwx, hwy] at h1 h2 h3
    simp at h1 h2 h3
    rcases h3 with h0 | h0
    · rw [h0] at h1
      norm_num at h1
    · rw [h0] at h2
      norm_num at h2

lemma bestFace_spec (c : Cube) (fn : V3) :
    (∀ g : Face, alignment c fn g ≤ alignment c fn (bestFace c fn)) ∧
    (∀ g : Face, faceIdx g < faceIdx (bestFace c fn) →
      alignment c fn g < alignment c fn (bestFace c fn)) := by
  unfold bestFace
  simp only [List.foldl_cons, List.foldl_nil]
  split_ifs with h1 h2 h3 h4 h5
  all_goals constructor
  all_goals intro g
  all_goals try intro hg
  all_goals cases g
  all_goals simp only [faceIdx] at *
  all_goals first
    | omega
    | linarith

lemma Ry_quarter : Ry (Real.pi / 2) = ⟨⟨0, 0, -1⟩, ⟨0, 1, 0⟩, ⟨1, 0, 0⟩⟩ := by
  simp [Ry, Real.cos_pi_div_two, Real.sin_pi_div_two]

lemma getFaceColour_init_front :
    getFaceColour (Cube.init ⟨1, 1, 1⟩) ⟨0, 0, 1⟩ = COLOUR_RED := by
  unfold getFaceColour bestFace
  simp only [List.foldl_cons, List.foldl_nil]
  norm_num [alignment, Cube.init, initNormals, V3.dot, initColours]

lemma getFaceColour_rotated_right :
    getFaceColour (Cube.rotate_y (Real.pi / 2) (Cube.init ⟨1, 1, 1⟩)) ⟨0, 0, 1⟩ =
      COLOUR_WHITE := by
  unfold getFaceColour bestFace
  simp only [List.foldl_cons, List.foldl_nil]
  norm_num [alignment, Cube.rotate_y, rotationUpdate, Cube.init, initNormals, Ry_quarter,
    M3.mulVec, V3.dot, initColours]

lemma dragCamera_zero (w h : ℝ) :
    dragCamera 0 0 w h = ⟨⟨0, 0, 6⟩, ⟨1, 0, 0⟩, ⟨0, 1, 0⟩, ⟨0, 0, -1⟩⟩ := by
  have hz : (0 : ℝ) / w * Real.pi = 0 := by simp
  have hz2 : (0 : ℝ) / h * Real.pi = 0 := by simp
  unfold dragCamera
  rw [hz, hz2]
  ext <;>
    simp [Ry, Rx, M3.mul, M3.mulVec, M3.col0, M3.col1, M3.col2, V3.dot, V3.neg, V3.smul,
      DISTANCE_TO_CAMERA]

lemma setInitialCamera_x_ne : setInitialCamera.camera_x ≠ ⟨1, 0, 0⟩ := by
  intro hEq
  have hx := congrArg V3.x hEq
  have h30 : (30 : ℝ) / 180 * Real.pi = Real.pi / 6 := by ring
  simp [setInitialCamera, M3.mul, M3.mulVec, M3.col0, M3.col1, M3.col2, V3.dot, h30, Rx, Ry,
    Real.cos_pi_div_six, Real.sin_pi_div_six] at hx
  have h3 : Real.sqrt 3 = 2 := by linarith
  have hsq := Real.sq_sqrt (by norm_num : (0 : ℝ) ≤ 3)
  rw [h3] at hsq
  norm_num at hsq

lemma project3dLegacy_degenerate :
    project3dLegacy ⟨1, 0, 6⟩ ⟨0, 0, 6⟩ ⟨1, 0, 0⟩ ⟨0, 1, 0⟩ ⟨0, 0, -1⟩ = none := by
  unfold project3dLegacy
  rw [if_pos]
  norm_num [V3.dot, V3.sub]

lemma lineLegacy_degenerate :
    lineLegacy 40 12 ⟨0, 0, 6⟩ ⟨1, 0, 0⟩ ⟨0, 1, 0⟩ ⟨0, 0, -1⟩ ⟨1, 0, 6⟩ ⟨0, 0, 0⟩ = none := by
  unfold lineLegacy
  rw [project3dLegacy_degenerate]

/-- C1: at the concrete degenerate input (camera at `(0,0,6)` with
right `(1,0,0)`, up `(0,1,0)`, forward `(0,0,-1)`, point `(1,0,6)`) the guard
quantity `|forward . (point - camera_position)|` is below `1e-6`, and the
legacy `project3d` of cube.py correctly returns the NoIntersection signal
`none`; but the legacy caller `Artist.line` then aborts (`x, y = None` raises
`TypeError`, modelled by `none` propagation) instead of omitting the single
primitive and continuing, and the package's `Artist.project3d`
(`project3dArtist`) contains no degeneracy branch at all.  This theorem
evaluates the code at the failing input. -/
theorem c1_degenerate_point_eval :
    |(⟨0, 0, -1⟩ : V3).dot (V3.sub ⟨1, 0, 6⟩ ⟨0, 0, 6⟩)| < 1e-6 ∧
    project3dLegacy ⟨1, 0, 6⟩ ⟨0, 0, 6⟩ ⟨1, 0, 0⟩ ⟨0, 1, 0⟩ ⟨0, 0, -1⟩ = none ∧
    lineLegacy 40 12 ⟨0, 0, 6⟩ ⟨1, 0, 0⟩ ⟨0, 1, 0⟩ ⟨0, 0, -1⟩ ⟨1, 0, 6⟩ ⟨0, 0, 0⟩ = none := by
  refine ⟨?_, project3dLegacy_degenerate, lineLegacy_degenerate⟩
  norm_num [V3.dot, V3.sub]

/-- C2 counterexample: the claim says rotation about X by `theta` maps
`(0,1,0)` to `(0, cos theta, sin theta)`; at `theta = pi/2` the code's matrix
maps `(0,1,0)` to `(0,0,-1)`, which is not `(0, cos(pi/2), sin(pi/2)) =
(0,0,1)`. -/
theorem c2_counterexample :
    (rotMatrix Axis.x (Real.pi / 2)).mulVec ⟨0, 1, 0⟩ = ⟨0, 0, -1⟩ ∧
    (⟨0, 0, -1⟩ : V3) ≠ ⟨0, Real.cos (Real.pi / 2), Real.sin (Real.pi / 2)⟩ := by
  constructor
  · ext <;>
      simp [rotMatrix, Rx, M3.mulVec, V3.dot, Real.cos_pi_div_two, Real.sin_pi_div_two]
  · intro hEq
    have hz := congrArg V3.z hEq
    simp [Real.sin_pi_div_two] at hz
    norm_num at hz

/-- C2 amended: for every axis and angle the constructor returns the
TRANSPOSE of the standard right-handed rotation matrix, i.e. the standard
right-handed matrix for angle `-theta`; in particular rotation about X maps
`(0,1,0)` to `(0, cos theta, -sin theta)`. -/
theorem c2_amended (axis : Axis) (theta : ℝ) :
    rotMatrix axis theta = rotMatrixSpec axis (-theta) ∧
    (Rx theta).mulVec ⟨0, 1, 0⟩ = ⟨0, Real.cos theta, -Real.sin theta⟩ := by
  constructor
  · cases axis <;>
      (ext <;>
        simp [rotMatrix, rotMatrixSpec, Rx, Ry, Rz, RxSpec, RySpec, RzSpec, Real.cos_neg,
          Real.sin_neg])
  · ext <;> simp [Rx, M3.mulVec, V3.dot]

/-- C3: for every axis, every layer index and every assembly state, four
consecutive clockwise twists of the same layer restore the whole grid
(positions, normals, corners, colours and grid slots) exactly, hence in
particular within the claimed `1e-9` tolerance. -/
theorem c3_four_twists_identity (axis : Axis) (idx : Fin 3) (G : Grid) :
    twist axis idx true (twist axis idx true (twist axis idx true (twist axis idx true G))) =
      G := by
  cases axis
  · exact four_twists_x idx true G
  · exact four_twists_y idx true G
  · exact four_twists_z idx true G

/-- C4 counterexample: with zero accumulated drag the drag handler produces
`right = (1,0,0)`, but `set_initial_camera` (the `reset()` frame) has
`right = Ry(30 deg) Rx(30 deg) (1,0,0)`, whose x component is `cos(pi/6) =
sqrt(3)/2 /= 1`; the two frames differ. -/
theorem c4_counterexample :
    (dragCamera 0 0 80 24).camera_x = ⟨1, 0, 0⟩ ∧
    setInitialCamera.camera_x ≠ ⟨1, 0, 0⟩ := by
  constructor
  · rw [dragCamera_zero]
  · exact setInitialCamera_x_ne

/-- C4 amended: for every screen extent, zero accumulated drag produces the
identity base frame: `right = (1,0,0)`, `up = (0,1,0)`, `forward = (0,0,-1)`
and the camera at distance `DISTANCE_TO_CAMERA` along `+z`; this frame is NOT
the `reset()` frame, which is rotated by the fixed 30-degree diagonal. -/
theorem c4_amended (w h : ℝ) :
    dragCamera 0 0 w h =
      ⟨⟨0, 0, DISTANCE_TO_CAMERA⟩, ⟨1, 0, 0⟩, ⟨0, 1, 0⟩, ⟨0, 0, -1⟩⟩ :=
  dragCamera_zero w h

/-- C5 counterexample: after a front-clockwise twist of the initial assembly,
the face-centre slot `(1,1,0)` of the front layer receives the rotation of
the cubelet that ALREADY occupied that same slot, and that cubelet's world
position `(0,0,1)` is unchanged: the centre cubelet of the layer is not
relocated, contradicting "relocated grid slots" for all 9 cubelets. -/
theorem c5_counterexample :
    twist Axis.z 0 true initialRubik 1 1 0 =
      rotationUpdate (rotMatrix Axis.z (twistAngle true)) (initialRubik 1 1 0) ∧
    (twist Axis.z 0 true initialRubik 1 1 0).position = (initialRubik 1 1 0).position := by
  have h1 : twist Axis.z 0 true initialRubik 1 1 0 =
      rotationUpdate (rotMatrix Axis.z (twistAngle true)) (initialRubik 1 1 0) := by
    rw [twist_z_in_t]
    rfl
  refine ⟨h1, ?_⟩
  rw [h1]
  show (rotMatrix Axis.z (twistAngle true)).mulVec (initialRubik 1 1 0).position =
    (initialRubik 1 1 0).position
  rw [rotM_z_true]
  show M3.mulVec _ (⟨xs 1, ys 1, ys 0⟩ : V3) = (⟨xs 1, ys 1, ys 0⟩ : V3)
  ext <;> simp [M3.mulVec, V3.dot, xs, ys]

/-- C5 amended: for every assembly state whose cubelets carry orthonormal
sticker frames (true of every reachable state), and every twist: the 18
cubelets outside the selected layer are exactly unchanged in geometry and
grid index; every one of the 9 cubelets inside the layer changes state under
the quarter rotation; and the grid slots of the layer are permuted by the
90-degree slice rotation, which fixes the face-centre slot (the centre
cubelet is rotated in place, not relocated). -/
theorem c5_amended (G : Grid) (h : NormalsOrtho G) (axis : Axis) (idx : Fin 3) (cw : Bool) :
    (∀ i j k : Fin 3, ¬inLayer axis idx i j k → twist axis idx cw G i j k = G i j k) ∧
    (∀ i j k : Fin 3, inLayer axis idx i j k →
      rotationUpdate (rotMatrix axis (twistAngle cw)) (G i j k) ≠ G i j k) ∧
    twist axis idx cw G (ctrSlot axis idx).1 (ctrSlot axis idx).2.1 (ctrSlot axis idx).2.2 =
      rotationUpdate (rotMatrix axis (twistAngle cw))
        (G (ctrSlot axis idx).1 (ctrSlot axis idx).2.1 (ctrSlot axis idx).2.2) := by
  refine ⟨?_, ?_, ?_⟩
  · intro i j k hout
    cases axis
    · exact twist_x_out _ _ _ _ _ _ hout
    · exact twist_y_out _ _ _ _ _ _ hout
    · exact twist_z_out _ _ _ _ _ _ hout
  · intro i j k _
    exact quarter_turn_moves axis cw _ (fun f g => h i j k f g)
  · cases axis
    · cases cw
      · rw [show ctrSlot Axis.x idx = (idx, 1, 1) from rfl, twist_x_in_f]
        rfl
      · rw [show ctrSlot Axis.x idx = (idx, 1, 1) from rfl, twist_x_in_t]
        rfl
    · cases cw
      · rw [show ctrSlot Axis.y idx = (1, idx, 1) from rfl, twist_y_in_f]
        rfl
      · rw [show ctrSlot Axis.y idx = (1, idx, 1) from rfl, twist_y_in_t]
        rfl
    · cases cw
      · rw [show ctrSlot Axis.z idx = (1, 1, idx) from rfl, twist_z_in_f]
        rfl
      · rw [show ctrSlot Axis.z idx = (1, 1, idx) from rfl, twist_z_in_t]
        rfl

/-- C5 witness: the hypothesis of the amended theorem holds for the initial
assembly, and the conclusion is obtained there for the front-clockwise
twist. -/
theorem c5_witness :
    NormalsOrtho initialRubik ∧
    ((∀ i j k : Fin 3, ¬inLayer Axis.z 0 i j k →
        twist Axis.z 0 true initialRubik i j k = initialRubik i j k) ∧
     (∀ i j k : Fin 3, inLayer Axis.z 0 i j k →
        rotationUpdate (rotMatrix Axis.z (twistAngle true)) (initialRubik i j k) ≠
          initialRubik i j k) ∧
     twist Axis.z 0 true initialRubik (ctrSlot Axis.z 0).1 (ctrSlot Axis.z 0).2.1
        (ctrSlot Axis.z 0).2.2 =
       rotationUpdate (rotMatrix Axis.z (twistAngle true))
         (initialRubik (ctrSlot Axis.z 0).1 (ctrSlot Axis.z 0).2.1 (ctrSlot Axis.z 0).2.2)) :=
  ⟨normalsOrtho_initial, c5_amended initialRubik normalsOrtho_initial Axis.z 0 true⟩

/-- C6: `get_face_colour` returns the colour of a face whose normal has the
maximal inner product with the query direction, and on ties the first maximal
face in the dictionary enumeration order wins; concretely, the fresh cubelet
at `(1,1,1)` queried with `(0,0,1)` yields red (front), and after a 90-degree
rotation about Y the same query yields white (the original right colour). -/
theorem c6_dominant_face_colour :
    (∀ (c : Cube) (fn : V3), ∃ f : Face,
        getFaceColour c fn = c.colours f ∧
        (∀ g : Face, alignment c fn g ≤ alignment c fn f) ∧
        (∀ g : Face, faceIdx g < faceIdx f → alignment c fn g < alignment c fn f)) ∧
    getFaceColour (Cube.init ⟨1, 1, 1⟩) ⟨0, 0, 1⟩ = COLOUR_RED ∧
    getFaceColour (Cube.rotate_y (Real.pi / 2) (Cube.init ⟨1, 1, 1⟩)) ⟨0, 0, 1⟩ =
      COLOUR_WHITE :=
  ⟨fun c fn => ⟨bestFace c fn, rfl, (bestFace_spec c fn).1, (bestFace_spec c fn).2⟩,
   getFaceColour_init_front, getFaceColour_rotated_right⟩

/-- C7 counterexample: the normals are NOT pairwise orthogonal after a twist
sequence (here the empty one): the front and back normals of a cubelet are
opposite unit vectors, with inner product -1, not 0. -/
theorem c7_counterexample :
    ((applyMoves [] initialRubik 0 0 0).normal_vectors Face.front).dot
      ((applyMoves [] initialRubik 0 0 0).normal_vectors Face.back) ≠ 0 := by
  show ((initialRubik 0 0 0).normal_vectors Face.front).dot
    ((initialRubik 0 0 0).normal_vectors Face.back) ≠ 0
  show (initNormals Face.front).dot (initNormals Face.back) ≠ 0
  norm_num [initNormals, V3.dot]

/-- C7 amended: after every finite sequence of twists, every cubelet's six
face normals pair exactly as the canonical table: each is a unit vector
(inner product 1 with itself), normals of distinct non-opposite faces are
orthogonal, and normals of opposite faces are antiparallel (inner
product -1). -/
theorem c7_amended (ms : List Move) (i j k : Fin 3) (f g : Face) :
    ((applyMoves ms initialRubik i j k).normal_vectors f).dot
      ((applyMoves ms initialRubik i j k).normal_vectors g) = orthoVal f g :=
  normalsOrtho_applyMoves ms initialRubik normalsOrtho_initial i j k f g

/-- C8: the key dispatch sends front/middle/back twists to axis Z (layer
indices 0/1/2), top/bottom to axis Y (0/2) and left/right to axis X (0/2);
the geometric sign is `+1` clockwise and `-1` counter-clockwise
(`twistDir`); and the slice index permutations make the Z-axis inversion
explicit: a clockwise Z twist permutes slots by `(i,j) <- (j, flip i)` (a
counter-clockwise index rotation of the slice, because the permutation
direction is the NEGATION of the geometric direction), while clockwise Y and
X twists permute by `(a,b) <- (flip b, a)` (the clockwise index rotation),
and symmetrically for counter-clockwise turns. -/
theorem c8_twist_dispatch_and_signs :
    (∀ G : Grid,
      applyCommand Cmd.front_cw G = twist Axis.z 0 true G ∧
      applyCommand Cmd.front_ccw G = twist Axis.z 0 false G ∧
      applyCommand Cmd.middle_cw G = twist Axis.z 1 true G ∧
      applyCommand Cmd.middle_ccw G = twist Axis.z 1 false G ∧
      applyCommand Cmd.back_cw G = twist Axis.z 2 true G ∧
      applyCommand Cmd.back_ccw G = twist Axis.z 2 false G ∧
      applyCommand Cmd.top_cw G = twist Axis.y 0 true G ∧
      applyCommand Cmd.top_ccw G = twist Axis.y 0 false G ∧
      applyCommand Cmd.bottom_cw G = twist Axis.y 2 true G ∧
      applyCommand Cmd.bottom_ccw G = twist Axis.y 2 false G ∧
      applyCommand Cmd.left_cw G = twist Axis.x 0 true G ∧
      applyCommand Cmd.left_ccw G = twist Axis.x 0 false G ∧
      applyCommand Cmd.right_cw G = twist Axis.x 2 true G ∧
      applyCommand Cmd.right_ccw G = twist Axis.x 2 false G) ∧
    twistDir true = 1 ∧ twistDir false = -1 ∧
    (∀ (idx : Fin 3) (G : Grid) (i j : Fin 3),
      twist Axis.z idx true G i j idx =
        rotationUpdate (rotMatrix Axis.z (twistAngle true)) (G j (flipIdx i) idx) ∧
      twist Axis.z idx false G i j idx =
        rotationUpdate (rotMatrix Axis.z (twistAngle false)) (G (flipIdx j) i idx) ∧
      twist Axis.y idx true G i idx j =
        rotationUpdate (rotMatrix Axis.y (twistAngle true)) (G (flipIdx j) idx i) ∧
      twist Axis.y idx false G i idx j =
        rotationUpdate (rotMatrix Axis.y (twistAngle false)) (G j idx (flipIdx i)) ∧
      twist Axis.x idx true G idx i j =
        rotationUpdate (rotMatrix Axis.x (twistAngle true)) (G idx (flipIdx j) i) ∧
      twist Axis.x idx false G idx i j =
        rotationUpdate (rotMatrix Axis.x (twistAngle false)) (G idx j (flipIdx i))) :=
  ⟨fun _ => ⟨rfl, rfl, rfl, rfl, rfl, rfl, rfl, rfl, rfl, rfl, rfl, rfl, rfl, rfl⟩,
   rfl, rfl,
   fun idx G i j =>
     ⟨twist_z_in_t idx G i j, twist_z_in_f idx G i j, twist_y_in_t idx G i j,
      twist_y_in_f idx G i j, twist_x_in_t idx G i j, twist_x_in_f idx G i j⟩⟩

/-- C9: `__rotation_update__` never touches the colour table; consequently
after every finite sequence of twists every cubelet still carries the colour
table fixed at construction, which assigns front=red, back=magenta,
left=yellow, right=white, top=green, bottom=blue. -/
theorem c9_colours_fixed :
    (∀ (R : M3) (c : Cube), (rotationUpdate R c).colours = c.colours) ∧
    (∀ (ms : List Move) (i j k : Fin 3),
      (applyMoves ms initialRubik i j k).colours = initColours) ∧
    initColours Face.front = COLOUR_RED ∧ initColours Face.back = COLOUR_MAGENTA ∧
    initColours Face.left = COLOUR_YELLOW ∧ initColours Face.right = COLOUR_WHITE ∧
    initColours Face.top = COLOUR_GREEN ∧ initColours Face.bottom = COLOUR_BLUE :=
  ⟨fun _ _ => rfl,
   fun ms i j k => coloursInv_applyMoves ms initialRubik coloursInv_initial i j k,
   rfl, rfl, rfl, rfl, rfl, rfl⟩

/-- C10: at construction the cubelet at grid index `(i,j,k)` has centre
position `(i-1, 1-j, 1-k)`; hence slice `k = 0` is the `z = 1` front layer,
slice `j = 0` the `y = 1` top layer and slice `i = 0` the `x = -1` left
layer; and this index-to-coordinate labeling is preserved by every twist the
dispatch can perform (every axis, layer index and direction). -/
theorem c10_grid_labeling :
    PosInv initialRubik ∧
    (∀ i j : Fin 3,
      (initialRubik i j 0).position.z = 1 ∧
      (initialRubik i 0 j).position.y = 1 ∧
      (initialRubik 0 i j).position.x = -1) ∧
    (∀ (G : Grid) (axis : Axis) (idx : Fin 3) (cw : Bool),
      PosInv G → PosInv (twist axis idx cw G)) := by
  refine ⟨posInv_initial, ?_, fun G axis idx cw h => posInv_twist axis idx cw G h⟩
  intro i j
  refine ⟨?_, ?_, ?_⟩ <;> simp [initialRubik, Cube.init, xs, ys]

/-- C10 witness: the preservation part applied to the initial assembly and a
front-clockwise twist, with the hypothesis discharged by the construction
part. -/
theorem c10_witness : PosInv (twist Axis.z 0 true initialRubik) :=
  c10_grid_labeling.2.2 initialRubik Axis.z 0 true c10_grid_labeling.1

/-- C6 witness: the first-maximal characterization instantiated at the fresh
corner cubelet and the upward query direction. -/
theorem c6_witness :
    ∃ f : Face,
      getFaceColour (Cube.init ⟨1, 1, 1⟩) ⟨0, 0, 1⟩ = (Cube.init ⟨1, 1, 1⟩).colours f ∧
      (∀ g : Face, alignment (Cube.init ⟨1, 1, 1⟩) ⟨0, 0, 1⟩ g ≤
        alignment (Cube.init ⟨1, 1, 1⟩) ⟨0, 0, 1⟩ f) ∧
      (∀ g : Face, faceIdx g < faceIdx f →
        alignment (Cube.init ⟨1, 1, 1⟩) ⟨0, 0, 1⟩ g <
          alignment (Cube.init ⟨1, 1, 1⟩) ⟨0, 0, 1⟩ f) :=
  c6_dominant_face_colour.1 (Cube.init ⟨1, 1, 1⟩) ⟨0, 0, 1⟩
